import Mathlib

/-!
Reaction store (`store/sql_reaction_store.go`).

A shallow embedding of the SQL reaction store: the `Reactions` and `Posts`
tables are lists of rows, a transaction is a working copy of the master
tables, and every database call may fail as dictated by a `Faults` record.
Each call is appended to a log so that "no database access" is a statement
about the log.
-/

namespace ReactionStore

/-! ## Data model -/

/-- Row of the `Reactions` table (`model.Reaction`). -/
structure Reaction where
  UserId : String
  PostId : String
  EmojiName : String
  CreateAt : Int
deriving DecidableEq, Repr

/-- Columns of the `Posts` table that the reaction store reads or writes. -/
structure Post where
  Id : String
  UpdateAt : Int
  HasReactions : Bool
deriving DecidableEq, Repr

/-- Modelled from the spec: `model.AppError` and its constructor
`model.NewLocAppError` live in the `model` package, which is not part of the
source fragment.  The error carries the location (`Where`), the reason code
(`Id`) and the detail string it was built from. -/
structure AppError where
  Where : String
  Id : String
  DetailedError : String
deriving DecidableEq, Repr

/-- Modelled from the spec: `model.NewLocAppError(where, id, params, details)`,
with the (always `nil`) parameter map dropped. -/
def NewLocAppError (wh id details : String) : AppError :=
  { Where := wh, Id := id, DetailedError := details }

/-- Contents of one database: the two tables the store touches. -/
structure Tables where
  Reactions : List Reaction
  Posts : List Post
deriving DecidableEq, Repr

/-- The database calls the store can issue. -/
inductive DbCall where
  | begin
  | selectInt
  | insert
  | delete
  | exec
  | commit
  | rollback
  | select
deriving DecidableEq, Repr

/-- Failure injection: `some msg` makes the corresponding database call
return the error `msg`; `none` lets it run. -/
structure Faults where
  begin : Option String
  selectInt : Option String
  insert : Option String
  delete : Option String
  exec : Option String
  commit : Option String
  select : Option String
deriving DecidableEq, Repr

/-- No database call fails. -/
def Faults.none : Faults :=
  { begin := Option.none, selectInt := Option.none, insert := Option.none,
    delete := Option.none, exec := Option.none, commit := Option.none,
    select := Option.none }

/-- The `SqlStore`: a master connection, a replica connection and the log of
database calls issued so far. -/
structure SqlStore where
  master : Tables
  replica : Tables
  calls : List DbCall
deriving DecidableEq, Repr

/-- An open `gorp.Transaction` on the master: the uncommitted working copy of
the tables and the call log. -/
structure Transaction where
  tables : Tables
  calls : List DbCall
deriving DecidableEq, Repr

/-- Payload of a `StoreResult` (`interface{}` in the source). -/
inductive StoreData where
  | empty
  | reaction (r : Reaction)
  | reactions (rs : List Reaction)
deriving DecidableEq, Repr

/-- Result delivered on the store channel. -/
structure StoreResult where
  Data : StoreData
  Err : Option AppError
deriving DecidableEq, Repr

/-! ## Row-level helpers -/

/-- Two reactions agree on the composite primary key
`(UserId, PostId, EmojiName)`. -/
def sameKey (a b : Reaction) : Bool :=
  decide (b.PostId = a.PostId) && decide (b.UserId = a.UserId)
    && decide (b.EmojiName = a.EmojiName)

/-- Result of `SELECT COUNT(0) FROM Reactions WHERE PostId = :PostId AND UserId = :UserId AND
EmojiName = :EmojiName`. -/
def countKey (rows : List Reaction) (r : Reaction) : Nat :=
  (rows.filter (sameKey r)).length

/-- Result of `SELECT count(0) FROM Reactions WHERE PostId = :PostId`. -/
def countForPost (rows : List Reaction) (postId : String) : Nat :=
  (rows.filter (fun x => decide (x.PostId = postId))).length

/-- The subquery `SELECT count(0) > 0 FROM Reactions WHERE PostId = :PostId`. -/
def hasAny (rows : List Reaction) (postId : String) : Bool :=
  decide (0 < countForPost rows postId)

/-- One row of the `UPDATE Posts ... WHERE Id = :PostId` statement: `UpdateAt`
moves to `now` only when `HasReactions` differs from the recomputed value. -/
def updatePostRow (rows : List Reaction) (postId : String) (now : Int) (p : Post) : Post :=
  if p.Id = postId then
    { Id := p.Id,
      UpdateAt := if p.HasReactions != hasAny rows postId then now else p.UpdateAt,
      HasReactions := hasAny rows postId }
  else p

/-! ## Database calls -/

/-- `s.GetMaster().Begin()`. -/
def SqlStore.Begin (f : Faults) (s : SqlStore) : Except String Transaction × SqlStore :=
  let s1 : SqlStore := { s with calls := s.calls ++ [DbCall.begin] }
  match f.begin with
  | some err => (Except.error err, s1)
  | Option.none => (Except.ok { tables := s.master, calls := s1.calls }, s1)

/-- `transaction.Rollback()`: the working copy is discarded. -/
def SqlStore.Rollback (s : SqlStore) (tx : Transaction) : SqlStore :=
  { s with calls := tx.calls ++ [DbCall.rollback] }

/-- `transaction.Commit()`: on success the working copy becomes the master
contents; on failure nothing is committed. -/
def SqlStore.Commit (f : Faults) (s : SqlStore) (tx : Transaction) : Option String × SqlStore :=
  match f.commit with
  | some err => (some err, { s with calls := tx.calls ++ [DbCall.commit] })
  | Option.none =>
    (Option.none, { s with master := tx.tables, calls := tx.calls ++ [DbCall.commit] })

/-- The `transaction.SelectInt` call of `saveReactionAndUpdatePost`. -/
def Transaction.SelectInt (f : Faults) (tx : Transaction) (r : Reaction) :
    Except String Int × Transaction :=
  let tx1 : Transaction := { tx with calls := tx.calls ++ [DbCall.selectInt] }
  match f.selectInt with
  | some err => (Except.error err, tx1)
  | Option.none => (Except.ok (Int.ofNat (countKey tx.tables.Reactions r)), tx1)

/-- Call `transaction.Insert(reaction)`: fails on an injected fault or when the primary
key is already taken, otherwise appends the row. -/
def Transaction.Insert (f : Faults) (tx : Transaction) (r : Reaction) :
    Option String × Transaction :=
  let tx1 : Transaction := { tx with calls := tx.calls ++ [DbCall.insert] }
  match f.insert with
  | some err => (some err, tx1)
  | Option.none =>
    if countKey tx.tables.Reactions r != 0 then
      (some "duplicate key value violates unique constraint", tx1)
    else
      (Option.none,
        { tx1 with tables := { tx.tables with Reactions := tx.tables.Reactions ++ [r] } })

/-- Call `transaction.Delete(reaction)`: removes the rows with the reaction's primary
key and returns how many there were. -/
def Transaction.Delete (f : Faults) (tx : Transaction) (r : Reaction) :
    Except String Int × Transaction :=
  let tx1 : Transaction := { tx with calls := tx.calls ++ [DbCall.delete] }
  match f.delete with
  | some err => (Except.error err, tx1)
  | Option.none =>
    (Except.ok (Int.ofNat (countKey tx.tables.Reactions r)),
      { tx1 with tables :=
          { tx.tables with
            Reactions := tx.tables.Reactions.filter (fun x => !(sameKey r x)) } })

/-- The `transaction.Exec` call of `updatePostForReactions`. -/
def Transaction.ExecUpdatePost (f : Faults) (tx : Transaction) (postId : String) (now : Int) :
    Option String × Transaction :=
  let tx1 : Transaction := { tx with calls := tx.calls ++ [DbCall.exec] }
  match f.exec with
  | some err => (some err, tx1)
  | Option.none =>
    (Option.none,
      { tx1 with tables :=
          { tx.tables with
            Posts := tx.tables.Posts.map (updatePostRow tx.tables.Reactions postId now) } })

/-- The `s.GetReplica().Select` call of `List`. -/
def SqlStore.SelectByPost (f : Faults) (s : SqlStore) (postId : String) :
    Except String (List Reaction) × SqlStore :=
  let s1 : SqlStore := { s with calls := s.calls ++ [DbCall.select] }
  match f.select with
  | some err => (Except.error err, s1)
  | Option.none =>
    (Except.ok (s.replica.Reactions.filter (fun x => decide (x.PostId = postId))), s1)

/-! ## The store -/

/-- Source function `updatePostForReactions`; `now` is `model.GetMillis()`. -/
def updatePostForReactions (f : Faults) (now : Int) (tx : Transaction) (postId : String) :
    Option String × Transaction :=
  tx.ExecUpdatePost f postId now

/-- Source function `saveReactionAndUpdatePost`. -/
def saveReactionAndUpdatePost (f : Faults) (now : Int) (tx : Transaction) (reaction : Reaction) :
    Option String × Transaction :=
  match tx.SelectInt f reaction with
  | (Except.error err, tx1) => (some err, tx1)
  | (Except.ok count, tx1) =>
    if count != 0 then
      (Option.none, tx1)
    else
      match tx1.Insert f reaction with
      | (some err, tx2) => (some err, tx2)
      | (Option.none, tx2) => updatePostForReactions f now tx2 reaction.PostId

/-- Source function `deleteReactionAndUpdatePost`. -/
def deleteReactionAndUpdatePost (f : Faults) (now : Int) (tx : Transaction)
    (reaction : Reaction) : Option String × Transaction :=
  match tx.Delete f reaction with
  | (Except.error err, tx1) => (some err, tx1)
  | (Except.ok _, tx1) => updatePostForReactions f now tx1 reaction.PostId

/-- Source method `SqlReactionStore.Save`.  `isValid` is `reaction.IsValid`, which the
`model` package defines; the value returned is the single result sent on the
store channel together with the store afterwards. -/
def SqlReactionStore.Save (isValid : Reaction → Option AppError) (f : Faults) (now : Int) (s : SqlStore)
    (reaction : Reaction) : StoreResult × SqlStore :=
  match isValid reaction with
  | some e => ({ Data := StoreData.empty, Err := some e }, s)
  | Option.none =>
    match s.Begin f with
    | (Except.error _, s1) =>
      ({ Data := StoreData.empty,
         Err := some (NewLocAppError "SqlReactionStore.Save"
                  "store.sql_reaction.save.begin.app_error" "") }, s1)
    | (Except.ok transaction, s1) =>
      match saveReactionAndUpdatePost f now transaction reaction with
      | (some err, tx1) =>
        ({ Data := StoreData.empty,
           Err := some (NewLocAppError "SqlPreferenceStore.Save"
                    "store.sql_reaction.save.save.app_error" err) }, s1.Rollback tx1)
      | (Option.none, tx1) =>
        match s1.Commit f tx1 with
        | (some err, s2) =>
          ({ Data := StoreData.empty,
             Err := some (NewLocAppError "SqlPreferenceStore.Save"
                      "store.sql_preference.save.commit.app_error" err) }, s2)
        | (Option.none, s2) => ({ Data := StoreData.reaction reaction, Err := Option.none }, s2)

/-- Source method `SqlReactionStore.Delete`. -/
def SqlReactionStore.Delete (isValid : Reaction → Option AppError) (f : Faults) (now : Int) (s : SqlStore)
    (reaction : Reaction) : StoreResult × SqlStore :=
  match isValid reaction with
  | some e => ({ Data := StoreData.empty, Err := some e }, s)
  | Option.none =>
    match s.Begin f with
    | (Except.error _, s1) =>
      ({ Data := StoreData.empty,
         Err := some (NewLocAppError "SqlReactionStore.Save"
                  "store.sql_reaction.delete.begin.app_error" "") }, s1)
    | (Except.ok transaction, s1) =>
      match deleteReactionAndUpdatePost f now transaction reaction with
      | (some err, tx1) =>
        ({ Data := StoreData.empty,
           Err := some (NewLocAppError "SqlPreferenceStore.Save"
                    "store.sql_reaction.delete.app_error" err) }, s1.Rollback tx1)
      | (Option.none, tx1) =>
        match s1.Commit f tx1 with
        | (some err, s2) =>
          ({ Data := StoreData.empty,
             Err := some (NewLocAppError "SqlPreferenceStore.Save"
                      "store.sql_preference.delete.commit.app_error" err) }, s2)
        | (Option.none, s2) => ({ Data := StoreData.reaction reaction, Err := Option.none }, s2)

/-- Source method `SqlReactionStore.List`. -/
def SqlReactionStore.List (f : Faults) (s : SqlStore) (postId : String) : StoreResult × SqlStore :=
  match s.SelectByPost f postId with
  | (Except.error _, s1) =>
    ({ Data := StoreData.empty,
       Err := some (NewLocAppError "SqlReactionStore.List"
                "store.sql_reaction.list.app_error" "") }, s1)
  | (Except.ok reactions, s1) => ({ Data := StoreData.reactions reactions, Err := Option.none }, s1)


/-! ## Auxiliary definitions for the statements -/

/-- Modelled from the spec: `model.Reaction.IsValid` is defined in the `model`
package, outside the source fragment.  The spec asks for non-empty identifiers
within the length bounds (26, 26 and 64 characters), a valid emoji name and a
timestamp.  The spec does not give the emoji-name format nor the reason codes;
letters, digits, underscore, hyphen and plus are accepted here, and the reason
codes name the offending field. -/
def Reaction.IsValid (o : Reaction) : Option AppError :=
  if o.UserId.length = 0 ∨ 26 < o.UserId.length then
    some (NewLocAppError "Reaction.IsValid" "model.reaction.is_valid.user_id.app_error"
      ("user_id=" ++ o.UserId))
  else if o.PostId.length = 0 ∨ 26 < o.PostId.length then
    some (NewLocAppError "Reaction.IsValid" "model.reaction.is_valid.post_id.app_error"
      ("post_id=" ++ o.PostId))
  else if o.EmojiName.length = 0 ∨ 64 < o.EmojiName.length
      ∨ o.EmojiName.data.all (fun c => c.isAlphanum || c = '_' || c = '-' || c = '+') = false then
    some (NewLocAppError "Reaction.IsValid" "model.reaction.is_valid.emoji_name.app_error"
      ("emoji_name=" ++ o.EmojiName))
  else if o.CreateAt = 0 then
    some (NewLocAppError "Reaction.IsValid" "model.reaction.is_valid.create_at.app_error" "")
  else Option.none

/-- The post with the given `Id` (the primary key of `Posts`), if any. -/
def findPost (posts : List Post) (postId : String) : Option Post :=
  posts.find? (fun p => decide (p.Id = postId))

/-- Primary-key constraint of `Reactions`: no two rows share
`(UserId, PostId, EmojiName)`. -/
def PrimaryKeyUnique (rows : List Reaction) : Prop :=
  ∀ x ∈ rows, countKey rows x ≤ 1

instance (rows : List Reaction) : Decidable (PrimaryKeyUnique rows) := by
  unfold PrimaryKeyUnique; infer_instance

/-- Every post's `HasReactions` equals "some reaction references the post". -/
def FlagsConsistent (t : Tables) : Prop :=
  ∀ p ∈ t.Posts, p.HasReactions = hasAny t.Reactions p.Id

instance (t : Tables) : Decidable (FlagsConsistent t) := by
  unfold FlagsConsistent; infer_instance

/-- One call made by a client of the store, with the faults the database
exhibits during the call and the clock reading `model.GetMillis()` returns. -/
inductive Call where
  | save (f : Faults) (now : Int) (r : Reaction)
  | delete (f : Faults) (now : Int) (r : Reaction)
deriving DecidableEq, Repr

/-- The reaction a call is about. -/
def Call.reaction : Call → Reaction
  | Call.save _ _ r => r
  | Call.delete _ _ r => r

/-- Store after one call has delivered its result. -/
def step (isValid : Reaction → Option AppError) (s : SqlStore) : Call → SqlStore
  | Call.save f now r => (SqlReactionStore.Save isValid f now s r).2
  | Call.delete f now r => (SqlReactionStore.Delete isValid f now s r).2

/-- Store after a sequence of calls executed one after another. -/
def run (isValid : Reaction → Option AppError) (s : SqlStore) (cs : List Call) : SqlStore :=
  cs.foldl (step isValid) s

/-! ## Concrete data used by the examples -/

/-- A well-formed reaction. -/
def r0 : Reaction :=
  { UserId := "uuuuuuuuuuuuuuuuuuuuuuuuu1", PostId := "ppppppppppppppppppppppppp1",
    EmojiName := "smile", CreateAt := 1000 }

/-- A second reaction on the same post by another user. -/
def r1 : Reaction :=
  { UserId := "uuuuuuuuuuuuuuuuuuuuuuuuu2", PostId := "ppppppppppppppppppppppppp1",
    EmojiName := "heart", CreateAt := 1001 }

/-- A reaction whose user identifier is missing. -/
def rBad : Reaction :=
  { UserId := "", PostId := "ppppppppppppppppppppppppp1", EmojiName := "smile", CreateAt := 1000 }

/-- Store whose master holds the given rows and a single post
`ppppppppppppppppppppppppp1` with the given flag, last updated at time 5. -/
def mkStore (rows : List Reaction) (flag : Bool) : SqlStore :=
  { master := { Reactions := rows,
                Posts := [{ Id := "ppppppppppppppppppppppppp1", UpdateAt := 5,
                            HasReactions := flag }] },
    replica := { Reactions := rows, Posts := [] },
    calls := [] }

/-! ## Helper lemmas -/

theorem sameKey_trans_fun (r x : Reaction) (h : sameKey r x = true) : sameKey x = sameKey r := by
  funext y
  simp only [sameKey, Bool.and_eq_true, decide_eq_true_eq] at h
  obtain ⟨⟨h1, h2⟩, h3⟩ := h
  simp [sameKey, h1, h2, h3]

theorem countKey_le_one (rows : List Reaction) (r : Reaction) (hpk : PrimaryKeyUnique rows) :
    countKey rows r ≤ 1 := by
  by_cases h : countKey rows r = 0
  · omega
  · have hpos : 0 < (rows.filter (sameKey r)).length := by
      unfold countKey at h; omega
    obtain ⟨x, hx⟩ := List.exists_mem_of_length_pos hpos
    rw [List.mem_filter] at hx
    have := hpk x hx.1
    unfold countKey at this ⊢
    rw [sameKey_trans_fun r x hx.2] at this
    exact this

theorem findPost_map_update (posts : List Post) (rows : List Reaction) (postId : String)
    (now : Int) :
    findPost (posts.map (updatePostRow rows postId now)) postId
      = (findPost posts postId).map (updatePostRow rows postId now) := by
  induction posts with
  | nil => rfl
  | cons p ps ih =>
    unfold findPost at ih ⊢
    by_cases hp : p.Id = postId
    · simp [List.find?, updatePostRow, hp]
    · simp [List.find?, updatePostRow, hp, ih]

theorem findPost_id (posts : List Post) (postId : String) (p : Post)
    (h : findPost posts postId = some p) : p.Id = postId := by
  unfold findPost at h
  have := List.find?_some h
  simpa using this

/-- The three possible outcomes of `Save` on a valid reaction. -/
theorem Save_cases (isValid : Reaction → Option AppError) (f : Faults) (now : Int)
    (s : SqlStore) (r : Reaction) (hv : isValid r = Option.none) :
    ((SqlReactionStore.Save isValid f now s r).1.Err ≠ Option.none
        ∧ (SqlReactionStore.Save isValid f now s r).2.master = s.master)
    ∨ ((SqlReactionStore.Save isValid f now s r).1.Err = Option.none
        ∧ countKey s.master.Reactions r ≠ 0
        ∧ (SqlReactionStore.Save isValid f now s r).2.master = s.master)
    ∨ ((SqlReactionStore.Save isValid f now s r).1.Err = Option.none
        ∧ countKey s.master.Reactions r = 0
        ∧ (SqlReactionStore.Save isValid f now s r).2.master
            = { Reactions := s.master.Reactions ++ [r],
                Posts := s.master.Posts.map
                  (updatePostRow (s.master.Reactions ++ [r]) r.PostId now) }) := by
  obtain ⟨fb, fs, fi, fd, fe, fc, fl⟩ := f
  by_cases hc : countKey s.master.Reactions r = 0 <;>
  cases fb <;> cases fs <;> cases fi <;> cases fe <;> cases fc <;>
  simp [SqlReactionStore.Save, hv, SqlStore.Begin, saveReactionAndUpdatePost,
    Transaction.SelectInt, Transaction.Insert, updatePostForReactions,
    Transaction.ExecUpdatePost, SqlStore.Commit, SqlStore.Rollback, hc]

theorem Delete_cases (isValid : Reaction → Option AppError) (f : Faults) (now : Int)
    (s : SqlStore) (r : Reaction) (hv : isValid r = Option.none) :
    ((SqlReactionStore.Delete isValid f now s r).1.Err ≠ Option.none
        ∧ (SqlReactionStore.Delete isValid f now s r).2.master = s.master)
    ∨ ((SqlReactionStore.Delete isValid f now s r).1.Err = Option.none
        ∧ (SqlReactionStore.Delete isValid f now s r).2.master
            = { Reactions := s.master.Reactions.filter (fun x => !(sameKey r x)),
                Posts := s.master.Posts.map
                  (updatePostRow (s.master.Reactions.filter (fun x => !(sameKey r x)))
                    r.PostId now) }) := by
  obtain ⟨fb, fs, fi, fd, fe, fc, fl⟩ := f
  cases fb <;> cases fd <;> cases fe <;> cases fc <;>
  simp [SqlReactionStore.Delete, hv, SqlStore.Begin, deleteReactionAndUpdatePost,
    Transaction.Delete, updatePostForReactions,
    Transaction.ExecUpdatePost, SqlStore.Commit, SqlStore.Rollback]

theorem Save_replica (isValid : Reaction → Option AppError) (f : Faults) (now : Int)
    (s : SqlStore) (r : Reaction) :
    (SqlReactionStore.Save isValid f now s r).2.replica = s.replica := by
  obtain ⟨fb, fs, fi, fd, fe, fc, fl⟩ := f
  by_cases hc : countKey s.master.Reactions r = 0 <;>
  cases hv : isValid r <;>
  cases fb <;> cases fs <;> cases fi <;> cases fe <;> cases fc <;>
  simp [SqlReactionStore.Save, hv, SqlStore.Begin, saveReactionAndUpdatePost,
    Transaction.SelectInt, Transaction.Insert, updatePostForReactions,
    Transaction.ExecUpdatePost, SqlStore.Commit, SqlStore.Rollback, hc]

theorem Delete_replica (isValid : Reaction → Option AppError) (f : Faults) (now : Int)
    (s : SqlStore) (r : Reaction) :
    (SqlReactionStore.Delete isValid f now s r).2.replica = s.replica := by
  obtain ⟨fb, fs, fi, fd, fe, fc, fl⟩ := f
  cases hv : isValid r <;>
  cases fb <;> cases fd <;> cases fe <;> cases fc <;>
  simp [SqlReactionStore.Delete, hv, SqlStore.Begin, deleteReactionAndUpdatePost,
    Transaction.Delete, updatePostForReactions,
    Transaction.ExecUpdatePost, SqlStore.Commit, SqlStore.Rollback]

theorem Save_invalid (isValid : Reaction → Option AppError) (f : Faults) (now : Int)
    (s : SqlStore) (r : Reaction) (e : AppError) (he : isValid r = some e) :
    SqlReactionStore.Save isValid f now s r = ({ Data := StoreData.empty, Err := some e }, s) := by
  simp [SqlReactionStore.Save, he]

theorem Delete_invalid (isValid : Reaction → Option AppError) (f : Faults) (now : Int)
    (s : SqlStore) (r : Reaction) (e : AppError) (he : isValid r = some e) :
    SqlReactionStore.Delete isValid f now s r
      = ({ Data := StoreData.empty, Err := some e }, s) := by
  simp [SqlReactionStore.Delete, he]

/-- With no database failure a valid `Save` succeeds. -/
theorem Save_noFaults_ok (isValid : Reaction → Option AppError) (now : Int)
    (s : SqlStore) (r : Reaction) (hv : isValid r = Option.none) :
    (SqlReactionStore.Save isValid Faults.none now s r).1.Err = Option.none := by
  by_cases hc : countKey s.master.Reactions r = 0 <;>
  simp [SqlReactionStore.Save, hv, SqlStore.Begin, saveReactionAndUpdatePost,
    Transaction.SelectInt, Transaction.Insert, updatePostForReactions,
    Transaction.ExecUpdatePost, SqlStore.Commit, SqlStore.Rollback, hc, Faults.none]

/-- With no database failure a valid `Delete` succeeds. -/
theorem Delete_noFaults_ok (isValid : Reaction → Option AppError) (now : Int)
    (s : SqlStore) (r : Reaction) (hv : isValid r = Option.none) :
    (SqlReactionStore.Delete isValid Faults.none now s r).1.Err = Option.none := by
  simp [SqlReactionStore.Delete, hv, SqlStore.Begin, deleteReactionAndUpdatePost,
    Transaction.Delete, updatePostForReactions,
    Transaction.ExecUpdatePost, SqlStore.Commit, SqlStore.Rollback, Faults.none]

theorem countKey_append_self (rows : List Reaction) (r : Reaction) :
    countKey (rows ++ [r]) r = countKey rows r + 1 := by
  simp [countKey, List.filter_append, sameKey]

theorem countForPost_append (rows : List Reaction) (r : Reaction) (postId : String) :
    countForPost (rows ++ [r]) postId
      = countForPost rows postId + (if r.PostId = postId then 1 else 0) := by
  by_cases h : r.PostId = postId <;> simp [countForPost, List.filter_append, h]

theorem hasAny_append_self (rows : List Reaction) (r : Reaction) :
    hasAny (rows ++ [r]) r.PostId = true := by
  simp [hasAny, countForPost_append]

theorem countKey_delete (rows : List Reaction) (r : Reaction) :
    countKey (rows.filter (fun x => !(sameKey r x))) r = 0 := by
  simp [countKey, List.filter_filter]

/-! ## Save -/

/-- C1: for every store whose `Reactions` table satisfies its primary key and
every valid reaction `r`, saving `r` twice with no database failure returns no
error on the second call, leaves exactly one row with the key of `r`, and the
second call leaves master and replica tables as the first call left them. -/
theorem C1_save_twice_idempotent (isValid : Reaction → Option AppError) (s : SqlStore)
    (r : Reaction) (now1 now2 : Int) (hv : isValid r = Option.none)
    (hpk : PrimaryKeyUnique s.master.Reactions) :
    (SqlReactionStore.Save isValid Faults.none now2
        (SqlReactionStore.Save isValid Faults.none now1 s r).2 r).1.Err = Option.none
    ∧ countKey (SqlReactionStore.Save isValid Faults.none now2
        (SqlReactionStore.Save isValid Faults.none now1 s r).2 r).2.master.Reactions r = 1
    ∧ (SqlReactionStore.Save isValid Faults.none now2
        (SqlReactionStore.Save isValid Faults.none now1 s r).2 r).2.master
        = (SqlReactionStore.Save isValid Faults.none now1 s r).2.master
    ∧ (SqlReactionStore.Save isValid Faults.none now2
        (SqlReactionStore.Save isValid Faults.none now1 s r).2 r).2.replica
        = (SqlReactionStore.Save isValid Faults.none now1 s r).2.replica := by
  have hone : countKey (SqlReactionStore.Save isValid Faults.none now1 s r).2.master.Reactions r
      = 1 := by
    rcases Save_cases isValid Faults.none now1 s r hv with h | h | h
    · exact absurd (Save_noFaults_ok isValid now1 s r hv) h.1
    · rw [h.2.2]
      have := countKey_le_one s.master.Reactions r hpk
      have := h.2.1
      omega
    · rw [h.2.2]
      simp only [countKey_append_self]
      omega
  have hok := Save_noFaults_ok isValid now2
    (SqlReactionStore.Save isValid Faults.none now1 s r).2 r hv
  have hsame : (SqlReactionStore.Save isValid Faults.none now2
        (SqlReactionStore.Save isValid Faults.none now1 s r).2 r).2.master
        = (SqlReactionStore.Save isValid Faults.none now1 s r).2.master := by
    rcases Save_cases isValid Faults.none now2
      (SqlReactionStore.Save isValid Faults.none now1 s r).2 r hv with h | h | h
    · exact h.2
    · exact h.2.2
    · have := h.2.1
      omega
  refine ⟨hok, ?_, hsame, Save_replica _ _ _ _ _⟩
  rw [hsame]
  exact hone

/-- Instance of C1: saving `r0` twice into a store without reactions. -/
theorem C1_save_twice_idempotent_witness :
    Reaction.IsValid r0 = Option.none
    ∧ PrimaryKeyUnique (mkStore [] false).master.Reactions
    ∧ countKey (SqlReactionStore.Save Reaction.IsValid Faults.none 200
        (SqlReactionStore.Save Reaction.IsValid Faults.none 100 (mkStore [] false) r0).2
        r0).2.master.Reactions r0 = 1 :=
  ⟨by decide, by decide,
    (C1_save_twice_idempotent Reaction.IsValid (mkStore [] false) r0 100 200
      (by decide) (by decide)).2.1⟩

/-- C2 fails as stated: `r0` is already stored and its post carries a stale
`HasReactions = false`; `Save` succeeds and the flag is still `false` although
one row references the post. -/
theorem C2_counterexample :
    Reaction.IsValid r0 = Option.none
    ∧ findPost (mkStore [r0] false).master.Posts r0.PostId
        = some { Id := r0.PostId, UpdateAt := 5, HasReactions := false }
    ∧ (SqlReactionStore.Save Reaction.IsValid Faults.none 100 (mkStore [r0] false) r0).1.Err
        = Option.none
    ∧ findPost
        (SqlReactionStore.Save Reaction.IsValid Faults.none 100 (mkStore [r0] false)
          r0).2.master.Posts r0.PostId
        = some { Id := r0.PostId, UpdateAt := 5, HasReactions := false }
    ∧ countForPost
        (SqlReactionStore.Save Reaction.IsValid Faults.none 100 (mkStore [r0] false)
          r0).2.master.Reactions r0.PostId = 1 := by
  decide

/-- C2 (amended): for every store containing the post `r.PostId` and every
valid reaction `r`, after a successful `Save r` that inserted the row the
post's `HasReactions` equals (number of rows with that `PostId`) > 0; when the
key was already stored the successful `Save` leaves the tables as they were. -/
theorem C2_save_recomputes_flag_on_insert (isValid : Reaction → Option AppError) (f : Faults)
    (now : Int) (s : SqlStore) (r : Reaction) (p : Post) (hv : isValid r = Option.none)
    (hp : findPost s.master.Posts r.PostId = some p)
    (hok : (SqlReactionStore.Save isValid f now s r).1.Err = Option.none) :
    (countKey s.master.Reactions r = 0 →
      ∃ q, findPost (SqlReactionStore.Save isValid f now s r).2.master.Posts r.PostId = some q
        ∧ q.HasReactions
            = decide (0 < countForPost
                (SqlReactionStore.Save isValid f now s r).2.master.Reactions r.PostId))
    ∧ (countKey s.master.Reactions r ≠ 0 →
      (SqlReactionStore.Save isValid f now s r).2.master = s.master) := by
  rcases Save_cases isValid f now s r hv with h | h | h
  · exact absurd hok h.1
  · exact ⟨fun h0 => absurd h0 h.2.1, fun _ => h.2.2⟩
  · refine ⟨fun _ => ?_, fun h0 => absurd h.2.1 h0⟩
    rw [h.2.2]
    simp only [findPost_map_update, hp, Option.map_some']
    refine ⟨_, rfl, ?_⟩
    have hid := findPost_id _ _ _ hp
    simp [updatePostRow, hid, hasAny]

/-- Instance of C2 (amended): first reaction saved on an existing post. -/
theorem C2_save_recomputes_flag_on_insert_witness :
    Reaction.IsValid r0 = Option.none
    ∧ (SqlReactionStore.Save Reaction.IsValid Faults.none 100 (mkStore [] false) r0).1.Err
        = Option.none
    ∧ ∃ q, findPost (SqlReactionStore.Save Reaction.IsValid Faults.none 100 (mkStore [] false)
              r0).2.master.Posts r0.PostId = some q
        ∧ q.HasReactions
            = decide (0 < countForPost
                (SqlReactionStore.Save Reaction.IsValid Faults.none 100 (mkStore [] false)
                  r0).2.master.Reactions r0.PostId) :=
  ⟨by decide, by decide,
    (C2_save_recomputes_flag_on_insert Reaction.IsValid Faults.none 100 (mkStore [] false) r0
      { Id := r0.PostId, UpdateAt := 5, HasReactions := false }
      (by decide) (by decide) (by decide)).1 (by decide)⟩

theorem filter_notKey_of_absent (rows : List Reaction) (r : Reaction)
    (habs : countKey rows r = 0) : rows.filter (fun x => !(sameKey r x)) = rows := by
  unfold countKey at habs
  rw [List.length_eq_zero, List.filter_eq_nil_iff] at habs
  rw [List.filter_eq_self]
  intro a ha
  simpa using habs a ha

theorem updatePostRow_same (rows : List Reaction) (postId : String) (now : Int) (p : Post)
    (h : p.HasReactions = hasAny rows postId) : updatePostRow rows postId now p = p := by
  cases p
  simp only at h
  simp [updatePostRow, h]

/-- C3 fails as stated: the post has no reaction but carries a stale
`HasReactions = true`; after the successful first `Save` at time 100 its
`UpdateAt` is still 5. -/
theorem C3_counterexample :
    Reaction.IsValid r0 = Option.none
    ∧ countKey (mkStore [] true).master.Reactions r0 = 0
    ∧ countForPost (mkStore [] true).master.Reactions r0.PostId = 0
    ∧ findPost (mkStore [] true).master.Posts r0.PostId
        = some { Id := r0.PostId, UpdateAt := 5, HasReactions := true }
    ∧ (SqlReactionStore.Save Reaction.IsValid Faults.none 100 (mkStore [] true) r0).1.Err
        = Option.none
    ∧ findPost
        (SqlReactionStore.Save Reaction.IsValid Faults.none 100 (mkStore [] true)
          r0).2.master.Posts r0.PostId
        = some { Id := r0.PostId, UpdateAt := 5, HasReactions := true }
    ∧ (5 : Int) ≠ 100 := by
  decide

/-- C3 (amended): for every valid reaction `r` not yet stored whose post `p`
exists, after a successful `Save r` at time `now`: if the post had no reaction
and `HasReactions` was false, the post has `HasReactions = true` and
`UpdateAt = now`; if the post had a reaction and `HasReactions` was true, the
post is exactly as before. -/
theorem C3_save_flag_and_timestamp (isValid : Reaction → Option AppError) (f : Faults)
    (now : Int) (s : SqlStore) (r : Reaction) (p : Post) (hv : isValid r = Option.none)
    (hnew : countKey s.master.Reactions r = 0)
    (hp : findPost s.master.Posts r.PostId = some p)
    (hok : (SqlReactionStore.Save isValid f now s r).1.Err = Option.none) :
    (countForPost s.master.Reactions r.PostId = 0 → p.HasReactions = false →
      findPost (SqlReactionStore.Save isValid f now s r).2.master.Posts r.PostId
        = some { Id := p.Id, UpdateAt := now, HasReactions := true })
    ∧ (0 < countForPost s.master.Reactions r.PostId → p.HasReactions = true →
      findPost (SqlReactionStore.Save isValid f now s r).2.master.Posts r.PostId = some p) := by
  have hid := findPost_id _ _ _ hp
  rcases Save_cases isValid f now s r hv with h | h | h
  · exact absurd hok h.1
  · exact absurd hnew h.2.1
  · rw [h.2.2]
    simp only [findPost_map_update, hp, Option.map_some']
    constructor
    · intro _ hflag
      simp [updatePostRow, hid, hasAny_append_self, hflag]
    · intro _ hflag
      rw [updatePostRow_same]
      rw [hflag, hasAny_append_self]

/-- Instance of C3 (amended): first reaction on a post whose flag is false. -/
theorem C3_save_flag_and_timestamp_witness :
    Reaction.IsValid r0 = Option.none
    ∧ countKey (mkStore [] false).master.Reactions r0 = 0
    ∧ findPost (SqlReactionStore.Save Reaction.IsValid Faults.none 100 (mkStore [] false)
        r0).2.master.Posts r0.PostId
        = some { Id := r0.PostId, UpdateAt := 100, HasReactions := true } :=
  ⟨by decide, by decide,
    (C3_save_flag_and_timestamp Reaction.IsValid Faults.none 100 (mkStore [] false) r0
      { Id := r0.PostId, UpdateAt := 5, HasReactions := false }
      (by decide) (by decide) (by decide) (by decide)).1 (by decide) (by decide)⟩

/-! ## Delete -/

/-- C4: for every stored valid reaction `r` whose post `p` exists with
`HasReactions = true`, after a successful `Delete r` at time `now` no row has
the key of `r`; if every row on the post had the key of `r`, the post has
`HasReactions = false` and `UpdateAt = now`; if some other row references the
post, the post is exactly as before. -/
theorem C4_delete_flag_and_timestamp (isValid : Reaction → Option AppError) (f : Faults)
    (now : Int) (s : SqlStore) (r : Reaction) (p : Post) (hv : isValid r = Option.none)
    (_hstored : countKey s.master.Reactions r ≠ 0)
    (hp : findPost s.master.Posts r.PostId = some p)
    (hflag : p.HasReactions = true)
    (hok : (SqlReactionStore.Delete isValid f now s r).1.Err = Option.none) :
    countKey (SqlReactionStore.Delete isValid f now s r).2.master.Reactions r = 0
    ∧ ((∀ x ∈ s.master.Reactions, x.PostId = r.PostId → sameKey r x = true) →
      findPost (SqlReactionStore.Delete isValid f now s r).2.master.Posts r.PostId
        = some { Id := p.Id, UpdateAt := now, HasReactions := false })
    ∧ ((∃ x ∈ s.master.Reactions, x.PostId = r.PostId ∧ sameKey r x = false) →
      findPost (SqlReactionStore.Delete isValid f now s r).2.master.Posts r.PostId = some p) := by
  have hid := findPost_id _ _ _ hp
  rcases Delete_cases isValid f now s r hv with h | h
  · exact absurd hok h.1
  · rw [h.2]
    simp only [findPost_map_update, hp, Option.map_some', countKey_delete, true_and]
    constructor
    · intro honly
      have hnone : hasAny (s.master.Reactions.filter (fun x => !(sameKey r x))) r.PostId
          = false := by
        simp only [hasAny, countForPost, List.filter_filter, decide_eq_false_iff_not, not_lt,
          Nat.le_zero, List.length_eq_zero, List.filter_eq_nil_iff]
        intro a ha
        by_cases hpa : a.PostId = r.PostId
        · simp [honly a ha hpa]
        · simp [hpa]
      simp [updatePostRow, hid, hnone, hflag]
    · rintro ⟨x, hx, hxp, hxk⟩
      have hsome : hasAny (s.master.Reactions.filter (fun x => !(sameKey r x))) r.PostId
          = true := by
        simp only [hasAny, countForPost, List.filter_filter, decide_eq_true_eq]
        apply List.length_pos_of_mem (a := x)
        rw [List.mem_filter]
        exact ⟨hx, by simp [hxp, hxk]⟩
      rw [updatePostRow_same]
      rw [hflag, hsome]

/-- Instance of C4: deleting the only reaction of a post. -/
theorem C4_delete_flag_and_timestamp_witness :
    Reaction.IsValid r0 = Option.none
    ∧ countKey (mkStore [r0] true).master.Reactions r0 ≠ 0
    ∧ findPost (SqlReactionStore.Delete Reaction.IsValid Faults.none 100 (mkStore [r0] true)
        r0).2.master.Posts r0.PostId
        = some { Id := r0.PostId, UpdateAt := 100, HasReactions := false } :=
  ⟨by decide, by decide,
    (C4_delete_flag_and_timestamp Reaction.IsValid Faults.none 100 (mkStore [r0] true) r0
      { Id := r0.PostId, UpdateAt := 5, HasReactions := true }
      (by decide) (by decide) (by decide) (by decide) (by decide)).2.1 (by decide)⟩

/-- C5 fails as stated: no row has the key of `r0` and the post carries a
stale `HasReactions = true`; `Delete` at time 100 succeeds and rewrites the
post to `HasReactions = false`, `UpdateAt = 100`. -/
theorem C5_counterexample :
    Reaction.IsValid r0 = Option.none
    ∧ countKey (mkStore [] true).master.Reactions r0 = 0
    ∧ findPost (mkStore [] true).master.Posts r0.PostId
        = some { Id := r0.PostId, UpdateAt := 5, HasReactions := true }
    ∧ (SqlReactionStore.Delete Reaction.IsValid Faults.none 100 (mkStore [] true) r0).1.Err
        = Option.none
    ∧ findPost
        (SqlReactionStore.Delete Reaction.IsValid Faults.none 100 (mkStore [] true)
          r0).2.master.Posts r0.PostId
        = some { Id := r0.PostId, UpdateAt := 100, HasReactions := false } := by
  decide

/-- C5 (amended): for every store and every valid reaction `r` whose key has no
row, `Delete r` with no database failure returns no error and leaves the
`Reactions` rows unchanged; if the post's `HasReactions` already equals
(number of rows with that `PostId`) > 0, the post is the same as before. -/
theorem C5_delete_absent (isValid : Reaction → Option AppError) (now : Int) (s : SqlStore)
    (r : Reaction) (hv : isValid r = Option.none)
    (habs : countKey s.master.Reactions r = 0) :
    (SqlReactionStore.Delete isValid Faults.none now s r).1.Err = Option.none
    ∧ (SqlReactionStore.Delete isValid Faults.none now s r).2.master.Reactions
        = s.master.Reactions
    ∧ ∀ p, findPost s.master.Posts r.PostId = some p →
        p.HasReactions = decide (0 < countForPost s.master.Reactions r.PostId) →
        findPost (SqlReactionStore.Delete isValid Faults.none now s r).2.master.Posts r.PostId
          = some p := by
  have hok := Delete_noFaults_ok isValid now s r hv
  rcases Delete_cases isValid Faults.none now s r hv with h | h
  · exact absurd hok h.1
  · rw [h.2, filter_notKey_of_absent _ _ habs]
    refine ⟨hok, rfl, ?_⟩
    intro p hp hflag
    simp only [findPost_map_update, hp, Option.map_some']
    rw [updatePostRow_same]
    exact hflag

/-- Instance of C5 (amended): deleting `r0` from a store that only holds `r1`. -/
theorem C5_delete_absent_witness :
    Reaction.IsValid r0 = Option.none
    ∧ countKey (mkStore [r1] true).master.Reactions r0 = 0
    ∧ (SqlReactionStore.Delete Reaction.IsValid Faults.none 100 (mkStore [r1] true)
        r0).2.master.Reactions = (mkStore [r1] true).master.Reactions :=
  ⟨by decide, by decide,
    (C5_delete_absent Reaction.IsValid 100 (mkStore [r1] true) r0
      (by decide) (by decide)).2.1⟩

/-! ## Validation -/

/-- C6: when `IsValid` returns the error `e`, `Save` and `Delete` each deliver
a result whose error is exactly `e` with no data, and the store, call log
included, is untouched: no database call is made. -/
theorem C6_invalid_no_database_access (isValid : Reaction → Option AppError) (f : Faults)
    (now : Int) (s : SqlStore) (r : Reaction) (e : AppError) (he : isValid r = some e) :
    SqlReactionStore.Save isValid f now s r = ({ Data := StoreData.empty, Err := some e }, s)
    ∧ SqlReactionStore.Delete isValid f now s r
        = ({ Data := StoreData.empty, Err := some e }, s)
    ∧ (SqlReactionStore.Save isValid f now s r).2.calls = s.calls
    ∧ (SqlReactionStore.Delete isValid f now s r).2.calls = s.calls := by
  rw [Save_invalid isValid f now s r e he, Delete_invalid isValid f now s r e he]
  exact ⟨rfl, rfl, rfl, rfl⟩

/-- Instance of C6: a reaction without user identifier. -/
theorem C6_invalid_no_database_access_witness :
    Reaction.IsValid rBad
        = some (NewLocAppError "Reaction.IsValid" "model.reaction.is_valid.user_id.app_error"
            "user_id=")
    ∧ (SqlReactionStore.Save Reaction.IsValid Faults.none 100 (mkStore [r0] true) rBad).2.calls
        = [] :=
  ⟨by decide,
    (C6_invalid_no_database_access Reaction.IsValid Faults.none 100 (mkStore [r0] true) rBad
      (NewLocAppError "Reaction.IsValid" "model.reaction.is_valid.user_id.app_error" "user_id=")
      (by decide)).2.2.1⟩

/-! ## Atomicity -/

/-- C7 fails as stated: `r1` is already stored and the post carries a stale
`HasReactions = false`; `Save` returns no error, yet the committed post still
has `HasReactions = false` while two rows reference it. -/
theorem C7_counterexample :
    Reaction.IsValid r1 = Option.none
    ∧ (SqlReactionStore.Save Reaction.IsValid Faults.none 100 (mkStore [r0, r1] false)
        r1).1.Err = Option.none
    ∧ (SqlReactionStore.Save Reaction.IsValid Faults.none 100 (mkStore [r0, r1] false)
        r1).2.master = (mkStore [r0, r1] false).master
    ∧ findPost
        (SqlReactionStore.Save Reaction.IsValid Faults.none 100 (mkStore [r0, r1] false)
          r1).2.master.Posts r1.PostId
        = some { Id := r1.PostId, UpdateAt := 5, HasReactions := false }
    ∧ countForPost
        (SqlReactionStore.Save Reaction.IsValid Faults.none 100 (mkStore [r0, r1] false)
          r1).2.master.Reactions r1.PostId = 2 := by
  decide

/-- C7 (amended): for every store, every fault pattern and every valid
reaction, a `Save` or `Delete` that returns an error leaves the committed
master tables exactly as before; a `Delete` that returns no error commits the
row removal together with the flag update; a `Save` that returns no error
either found the key already stored and commits no change at all, or commits
the inserted row together with the flag update. -/
theorem C7_save_delete_atomic (isValid : Reaction → Option AppError) (f : Faults)
    (now : Int) (s : SqlStore) (r : Reaction) (hv : isValid r = Option.none) :
    ((SqlReactionStore.Save isValid f now s r).1.Err ≠ Option.none →
      (SqlReactionStore.Save isValid f now s r).2.master = s.master)
    ∧ ((SqlReactionStore.Save isValid f now s r).1.Err = Option.none →
      (countKey s.master.Reactions r ≠ 0
        ∧ (SqlReactionStore.Save isValid f now s r).2.master = s.master)
      ∨ (countKey s.master.Reactions r = 0
        ∧ (SqlReactionStore.Save isValid f now s r).2.master
            = { Reactions := s.master.Reactions ++ [r],
                Posts := s.master.Posts.map
                  (updatePostRow (s.master.Reactions ++ [r]) r.PostId now) }))
    ∧ ((SqlReactionStore.Delete isValid f now s r).1.Err ≠ Option.none →
      (SqlReactionStore.Delete isValid f now s r).2.master = s.master)
    ∧ ((SqlReactionStore.Delete isValid f now s r).1.Err = Option.none →
      (SqlReactionStore.Delete isValid f now s r).2.master
        = { Reactions := s.master.Reactions.filter (fun x => !(sameKey r x)),
            Posts := s.master.Posts.map
              (updatePostRow (s.master.Reactions.filter (fun x => !(sameKey r x)))
                r.PostId now) }) := by
  refine ⟨?_, ?_, ?_, ?_⟩
  · intro herr
    rcases Save_cases isValid f now s r hv with h | h | h
    · exact h.2
    · exact absurd h.1 herr
    · exact absurd h.1 herr
  · intro hok
    rcases Save_cases isValid f now s r hv with h | h | h
    · exact absurd hok h.1
    · exact Or.inl h.2
    · exact Or.inr h.2
  · intro herr
    rcases Delete_cases isValid f now s r hv with h | h
    · exact h.2
    · exact absurd h.1 herr
  · intro hok
    rcases Delete_cases isValid f now s r hv with h | h
    · exact absurd hok h.1
    · exact h.2

/-- Instance of C7 (amended): the commit of a `Save` fails after the insert
and the flag update ran inside the transaction; nothing is committed. -/
theorem C7_save_delete_atomic_witness :
    Reaction.IsValid r0 = Option.none
    ∧ (SqlReactionStore.Save Reaction.IsValid { Faults.none with commit := some "io" } 100
        (mkStore [] false) r0).1.Err ≠ Option.none
    ∧ (SqlReactionStore.Save Reaction.IsValid { Faults.none with commit := some "io" } 100
        (mkStore [] false) r0).2.master = (mkStore [] false).master :=
  ⟨by decide, by decide,
    (C7_save_delete_atomic Reaction.IsValid { Faults.none with commit := some "io" } 100
      (mkStore [] false) r0 (by decide)).1 (by decide)⟩

/-! ## List -/

/-- C8: when the read does not fail, `List postId` returns no error and the
rows of the tables it reads (the replica connection) whose `PostId` is
`postId`, no other row and none missing; when no row references `postId` the
result is the empty collection; master and replica tables are unchanged. -/
theorem C8_list_exact (f : Faults) (s : SqlStore) (postId : String)
    (hread : f.select = Option.none) :
    (SqlReactionStore.List f s postId).1.Err = Option.none
    ∧ (SqlReactionStore.List f s postId).1.Data
        = StoreData.reactions (s.replica.Reactions.filter (fun x => decide (x.PostId = postId)))
    ∧ (∀ x, x ∈ s.replica.Reactions.filter (fun x => decide (x.PostId = postId))
        ↔ x ∈ s.replica.Reactions ∧ x.PostId = postId)
    ∧ (countForPost s.replica.Reactions postId = 0 →
        (SqlReactionStore.List f s postId).1.Data = StoreData.reactions [])
    ∧ (SqlReactionStore.List f s postId).2.master = s.master
    ∧ (SqlReactionStore.List f s postId).2.replica = s.replica := by
  have hres : SqlReactionStore.List f s postId
      = ({ Data := StoreData.reactions
            (s.replica.Reactions.filter (fun x => decide (x.PostId = postId))),
           Err := Option.none }, { s with calls := s.calls ++ [DbCall.select] }) := by
    simp [SqlReactionStore.List, SqlStore.SelectByPost, hread]
  rw [hres]
  refine ⟨rfl, rfl, ?_, ?_, rfl, rfl⟩
  · intro x
    simp [List.mem_filter]
  · intro h0
    unfold countForPost at h0
    rw [List.length_eq_zero] at h0
    simp only [h0]

/-- Instance of C8: listing a post no reaction references. -/
theorem C8_list_exact_witness :
    Faults.none.select = Option.none
    ∧ countForPost (mkStore [r0, r1] true).replica.Reactions "qqqqqqqqqqqqqqqqqqqqqqqqq1" = 0
    ∧ (SqlReactionStore.List Faults.none (mkStore [r0, r1] true)
        "qqqqqqqqqqqqqqqqqqqqqqqqq1").1.Data = StoreData.reactions [] :=
  ⟨by decide, by decide,
    (C8_list_exact Faults.none (mkStore [r0, r1] true) "qqqqqqqqqqqqqqqqqqqqqqqqq1"
      (by decide)).2.2.2.1 (by decide)⟩

/-! ## Error reasons -/

/-- C9 at its failing inputs: a `Save` whose insert fails and a `Save` whose
commit fails report the location `SqlPreferenceStore.Save` (the commit one
with a `sql_preference` reason code), and a `Delete` whose transaction cannot
begin, whose delete fails or whose commit fails reports a `Save` location,
never `SqlReactionStore.Delete`. -/
theorem C9_error_locations :
    (SqlReactionStore.Save Reaction.IsValid { Faults.none with insert := some "io" } 100
        (mkStore [] false) r0).1.Err
      = some { Where := "SqlPreferenceStore.Save",
               Id := "store.sql_reaction.save.save.app_error", DetailedError := "io" }
    ∧ (SqlReactionStore.Save Reaction.IsValid { Faults.none with commit := some "io" } 100
        (mkStore [] false) r0).1.Err
      = some { Where := "SqlPreferenceStore.Save",
               Id := "store.sql_preference.save.commit.app_error", DetailedError := "io" }
    ∧ (SqlReactionStore.Delete Reaction.IsValid { Faults.none with begin := some "io" } 100
        (mkStore [r0] true) r0).1.Err
      = some { Where := "SqlReactionStore.Save",
               Id := "store.sql_reaction.delete.begin.app_error", DetailedError := "" }
    ∧ (SqlReactionStore.Delete Reaction.IsValid { Faults.none with delete := some "io" } 100
        (mkStore [r0] true) r0).1.Err
      = some { Where := "SqlPreferenceStore.Save",
               Id := "store.sql_reaction.delete.app_error", DetailedError := "io" }
    ∧ (SqlReactionStore.Delete Reaction.IsValid { Faults.none with commit := some "io" } 100
        (mkStore [r0] true) r0).1.Err
      = some { Where := "SqlPreferenceStore.Save",
               Id := "store.sql_preference.delete.commit.app_error", DetailedError := "io" } := by
  decide

/-! ## Flag consistency over sequences of calls -/

theorem hasAny_append_other (rows : List Reaction) (r : Reaction) (postId : String)
    (h : postId ≠ r.PostId) : hasAny (rows ++ [r]) postId = hasAny rows postId := by
  have h' : ¬ r.PostId = postId := fun e => h e.symm
  simp [hasAny, countForPost_append, h']

theorem hasAny_delete_other (rows : List Reaction) (r : Reaction) (postId : String)
    (h : postId ≠ r.PostId) :
    hasAny (rows.filter (fun x => !(sameKey r x))) postId = hasAny rows postId := by
  have hf : (rows.filter (fun x => !(sameKey r x))).filter (fun x => decide (x.PostId = postId))
      = rows.filter (fun x => decide (x.PostId = postId)) := by
    rw [List.filter_filter]
    apply List.filter_congr
    intro x _
    by_cases hx : x.PostId = postId
    · have hne : ¬ x.PostId = r.PostId := fun e => h (hx.symm.trans e)
      simp [sameKey, hne]
    · simp [hx]
  simp only [hasAny, countForPost, hf]

/-- What one call does to the master tables: nothing, or a new set of rows that
agrees with the old one on every other post, with the call's post recomputed. -/
theorem step_spec (isValid : Reaction → Option AppError) (s : SqlStore) (c : Call) :
    (step isValid s c).master = s.master
    ∨ ∃ rows now,
        (∀ postId, postId ≠ c.reaction.PostId →
          hasAny rows postId = hasAny s.master.Reactions postId)
        ∧ (step isValid s c).master
            = { Reactions := rows,
                Posts := s.master.Posts.map (updatePostRow rows c.reaction.PostId now) } := by
  cases c with
  | save f now r =>
    simp only [step, Call.reaction]
    cases hv : isValid r with
    | some e => left; rw [Save_invalid isValid f now s r e hv]
    | none =>
      rcases Save_cases isValid f now s r hv with h | h | h
      · exact Or.inl h.2
      · exact Or.inl h.2.2
      · exact Or.inr ⟨_, now, fun postId hne => hasAny_append_other _ _ _ hne, h.2.2⟩
  | delete f now r =>
    simp only [step, Call.reaction]
    cases hv : isValid r with
    | some e => left; rw [Delete_invalid isValid f now s r e hv]
    | none =>
      rcases Delete_cases isValid f now s r hv with h | h
      · exact Or.inl h.2
      · exact Or.inr ⟨_, now, fun postId hne => hasAny_delete_other _ _ _ hne, h.2⟩

theorem flagsConsistent_update (t : Tables) (rows : List Reaction) (postId : String) (now : Int)
    (hrows : ∀ q, q ≠ postId → hasAny rows q = hasAny t.Reactions q)
    (h : FlagsConsistent t) :
    FlagsConsistent
      { Reactions := rows, Posts := t.Posts.map (updatePostRow rows postId now) } := by
  intro p hp
  simp only [List.mem_map] at hp
  obtain ⟨q, hq, rfl⟩ := hp
  by_cases hid : q.Id = postId
  · simp [updatePostRow, hid]
  · simp only [updatePostRow, hid, if_false]
    rw [h q hq, hrows q.Id hid]

theorem filter_other_update (posts : List Post) (rows : List Reaction) (postId : String)
    (now : Int) :
    (posts.map (updatePostRow rows postId now)).filter (fun p => !decide (p.Id = postId))
      = posts.filter (fun p => !decide (p.Id = postId)) := by
  induction posts with
  | nil => rfl
  | cons p ps ih =>
    by_cases hp : p.Id = postId
    · simp [updatePostRow, hp, List.filter_cons]
      simpa [updatePostRow] using ih
    · simp [updatePostRow, hp, List.filter_cons]
      simpa [updatePostRow] using ih

theorem step_frame (isValid : Reaction → Option AppError) (s : SqlStore) (c : Call) :
    (step isValid s c).master.Posts.filter (fun p => !decide (p.Id = c.reaction.PostId))
      = s.master.Posts.filter (fun p => !decide (p.Id = c.reaction.PostId)) := by
  rcases step_spec isValid s c with h | ⟨rows, now, _, h⟩
  · rw [h]
  · rw [h]
    exact filter_other_update _ _ _ _

theorem step_consistent (isValid : Reaction → Option AppError) (s : SqlStore) (c : Call)
    (h : FlagsConsistent s.master) : FlagsConsistent (step isValid s c).master := by
  rcases step_spec isValid s c with h1 | ⟨rows, now, hrows, h1⟩
  · rw [h1]; exact h
  · rw [h1]
    exact flagsConsistent_update _ _ _ _ hrows h

theorem run_consistent (isValid : Reaction → Option AppError) (cs : List Call) :
    ∀ s : SqlStore, FlagsConsistent s.master → FlagsConsistent (run isValid s cs).master := by
  induction cs with
  | nil => intro s h; exact h
  | cons c cs ih =>
    intro s h
    exact ih (step isValid s c) (step_consistent isValid s c h)

theorem run_frame (isValid : Reaction → Option AppError) (cs : List Call) :
    ∀ s : SqlStore,
      (run isValid s cs).master.Posts.filter
          (fun p => decide (p.Id ∉ cs.map (fun c => c.reaction.PostId)))
        = s.master.Posts.filter
          (fun p => decide (p.Id ∉ cs.map (fun c => c.reaction.PostId))) := by
  induction cs with
  | nil => intro s; rfl
  | cons c cs ih =>
    intro s
    have hsplit : ∀ l : List Post,
        l.filter (fun p => decide (p.Id ∉ (c :: cs).map (fun c => c.reaction.PostId)))
          = (l.filter (fun p => !decide (p.Id = c.reaction.PostId))).filter
              (fun p => decide (p.Id ∉ cs.map (fun c => c.reaction.PostId))) := by
      intro l
      rw [List.filter_filter]
      apply List.filter_congr
      intro p _
      by_cases h1 : p.Id = c.reaction.PostId <;> simp [h1]
    have hcomm : ∀ l : List Post,
        (l.filter (fun p => !decide (p.Id = c.reaction.PostId))).filter
            (fun p => decide (p.Id ∉ cs.map (fun c => c.reaction.PostId)))
          = (l.filter (fun p => decide (p.Id ∉ cs.map (fun c => c.reaction.PostId)))).filter
              (fun p => !decide (p.Id = c.reaction.PostId)) := by
      intro l
      rw [List.filter_filter, List.filter_filter]
      apply List.filter_congr
      intro p _
      rw [Bool.and_comm]
    have hrun : run isValid s (c :: cs) = run isValid (step isValid s c) cs := rfl
    rw [hrun, hsplit, hsplit, hcomm, ih (step isValid s c), ← hcomm, step_frame]

/-- C10: if every post's `HasReactions` equals (number of rows referencing the
post) > 0 in the starting master tables, then after any finite sequence of
`Save` and `Delete` calls executed one after another, each with any reaction,
any fault pattern and any clock reading, the same holds of the final master
tables, and the posts whose `Id` no call's reaction names are unchanged. -/
theorem C10_flags_consistent_invariant (isValid : Reaction → Option AppError) (s : SqlStore)
    (cs : List Call) (h : FlagsConsistent s.master) :
    FlagsConsistent (run isValid s cs).master
    ∧ (run isValid s cs).master.Posts.filter
          (fun p => decide (p.Id ∉ cs.map (fun c => c.reaction.PostId)))
        = s.master.Posts.filter
          (fun p => decide (p.Id ∉ cs.map (fun c => c.reaction.PostId))) :=
  ⟨run_consistent isValid cs s h, run_frame isValid cs s⟩

/-- Instance of C10: save, save again with a failing commit, delete, delete. -/
theorem C10_flags_consistent_invariant_witness :
    FlagsConsistent (mkStore [r1] true).master
    ∧ FlagsConsistent
        (run Reaction.IsValid (mkStore [r1] true)
          [Call.save Faults.none 100 r0,
           Call.save { Faults.none with commit := some "io" } 101 r0,
           Call.delete Faults.none 102 r1,
           Call.delete Faults.none 103 r0]).master :=
  ⟨by decide,
    (C10_flags_consistent_invariant Reaction.IsValid (mkStore [r1] true)
      [Call.save Faults.none 100 r0,
       Call.save { Faults.none with commit := some "io" } 101 r0,
       Call.delete Faults.none 102 r1,
       Call.delete Faults.none 103 r0] (by decide)).1⟩

end ReactionStore
